import Mathlib

/-!
# Package `logging` of sentinel-golang: a leveled, namespaced file logger

A shallow embedding of `src/logging/logging.go` together with the properties
of its level filter, its line format, its constructor and its default logger.

Modelling conventions.

* `Level` is Go's `uint8`; it is embedded as a natural number.  No arithmetic
  is performed on levels, only comparisons, so no wrap-around occurs.  Every
  theorem that quantifies over a threshold holds for all naturals, hence for
  all 256 values a `uint8` can take.
* A `*SentinelLogger` is an address into the heap of the process state
  (`Ptr`); `nil` is `none`.
* The sink of a logger is abstracted to the sequence of strings that were
  handed to `log.Logger.Print`; the time stamp, the trailing newline and the
  result of the underlying write (which `Print` discards) are not modelled.
* The Go standard library (`fmt`, `log`, `os`) is not part of the repository.
  `fmt.Sprint` and `fmt.Sprintf` are modelled for a fragment described at
  their definitions; the outcomes of the `os` calls are supplied by an
  environment `Env` over which the theorems quantify.
-/

namespace Logging

/-! ## Levels -/

/-- Go: `type Level uint8`. -/
abbrev Level := Nat

namespace Level

/-- Go: `Debug Level = iota`. -/
abbrev Debug : Level := 0
/-- Second constant of the `iota` block. -/
abbrev Info : Level := 1
/-- Third constant of the `iota` block. -/
abbrev Warn : Level := 2
/-- Fourth constant of the `iota` block. -/
abbrev Error : Level := 3
/-- Fifth constant of the `iota` block. -/
abbrev Fatal : Level := 4
/-- Sixth constant of the `iota` block. -/
abbrev Panic : Level := 5

end Level

/-- Go: `const RecordLogFileName = "sentinel-record.log"`. -/
def RecordLogFileName : String := "sentinel-record.log"

/-! ## The fragment of package `fmt` used by the loggers -/

/-- Operands of the variadic `...interface{}` parameters.  The model covers
Go strings and Go `int`s. -/
inductive Value where
  | str (s : String)
  | int (i : Int)
  deriving DecidableEq, Repr

/-- Whether the operand has kind `reflect.String`. -/
def Value.isString : Value → Bool
  | .str _ => true
  | .int _ => false

/-- Result of `reflect.TypeOf(arg).String()`. -/
def typeName : Value → String
  | .str _ => "string"
  | .int _ => "int"

/-- Default rendering of an operand (verb `v`). -/
def printValue : Value → List Char
  | .str s => s.data
  | .int i => (toString i).data

/-- Go's `badVerb`: the text `%!verb(type=value)`. -/
def badVerb (verb : Char) (arg : Value) : List Char :=
  "%!".data ++ verb :: '(' :: (typeName arg).data ++ '=' :: printValue arg ++ [')']

/-- Go's `printArg` for the verbs `T`, `v`, `s` and `d`.  Any other verb is
rendered as a bad verb; for the verbs `x`, `X`, `q` (strings) and `b`, `o`,
`O`, `x`, `X`, `c`, `q`, `U` (integers) Go prints a value instead, and these
lie outside the modelled fragment. -/
def printArg (arg : Value) (verb : Char) : List Char :=
  if verb = 'T' then (typeName arg).data
  else match arg with
    | .str s => if verb = 'v' ∨ verb = 's' then s.data else badVerb verb arg
    | .int i => if verb = 'v' ∨ verb = 'd' then (toString i).data else badVerb verb arg

/-- Go's `doPrint`: operands in their default format, with a space between
two operands when neither is a string.  `notFirst` is `argNum > 0` and
`prevString` is the flag of the same name. -/
def doPrint : List Value → Bool → Bool → List Char
  | [], _, _ => []
  | arg :: rest, notFirst, prevString =>
    (if notFirst && !arg.isString && !prevString then [' '] else [])
      ++ printArg arg 'v' ++ doPrint rest true arg.isString

/-- Go: `fmt.Sprint(a...)`. -/
def Sprint (a : List Value) : String :=
  String.mk (doPrint a false false)

/-- The operands listed inside `%!(EXTRA ...)`. -/
def extraArgs : List Value → List Char
  | [] => []
  | [x] => (typeName x).data ++ '=' :: printValue x
  | x :: y :: rest =>
    (typeName x).data ++ '=' :: printValue x ++ ", ".data ++ extraArgs (y :: rest)

/-- The report of operands left over at the end of the format. -/
def extra (a : List Value) : List Char :=
  if a.isEmpty then [] else "%!(EXTRA ".data ++ extraArgs a ++ [')']

/-- Go's `doPrintf` for directives made of `%` and one verb character
(`%%` prints a percent sign).  Flags, width, precision and argument indexes
lie outside the modelled fragment; `inFragment` decides which formats the
model covers. -/
def doPrintf : List Char → List Value → List Char
  | [], a => extra a
  | [c], a => if c = '%' then "%!(NOVERB)".data ++ extra a else c :: extra a
  | c :: verb :: fs, a =>
    if c = '%' then
      if verb = '%' then '%' :: doPrintf fs a
      else match a with
        | [] => "%!".data ++ verb :: "(MISSING)".data ++ doPrintf fs []
        | x :: rest => printArg x verb ++ doPrintf fs rest
    else c :: doPrintf (verb :: fs) a

/-- Go: `fmt.Sprintf(format, a...)`. -/
def Sprintf (format : String) (a : List Value) : String :=
  String.mk (doPrintf format.data a)

/-! ## The fragment of packages `os` and `log` used by the loggers -/

/-- Go: `os.O_RDWR` (Linux). -/
def O_RDWR : Nat := 0x2
/-- Go: `os.O_CREATE` (Linux). -/
def O_CREATE : Nat := 0x40
/-- Go: `os.O_TRUNC` (Linux). -/
def O_TRUNC : Nat := 0x200
/-- Go: `os.O_APPEND` (Linux). -/
def O_APPEND : Nat := 0x400
/-- Go: `os.ModePerm`. -/
def ModePerm : Nat := 0o777
/-- Go: `log.LstdFlags`, that is `Ldate | Ltime`. -/
def LstdFlags : Int := 3
/-- Go: `os.PathSeparator` (Unix). -/
def PathSeparator : Char := '/'

/-- An error value returned by an `os` call: its `Error()` text and whether
`os.IsNotExist` holds of it. -/
structure OSError where
  msg : String
  notExist : Bool
  deriving DecidableEq, Repr

/-- An open `*os.File`: the arguments it was opened with. -/
structure File where
  name : String
  flag : Nat
  perm : Nat
  deriving DecidableEq, Repr

/-- Go's `log.Logger`: its writer, its line header text, its flags, and the
strings handed to it so far (oldest first). -/
structure Logger where
  out : File
  pre : String
  flag : Int
  written : List String
  deriving DecidableEq, Repr

/-- Go: `log.New(out, prefix, flag)`. -/
def Logger.New (out : File) (pre : String) (flag : Int) : Logger :=
  { out := out, pre := pre, flag := flag, written := [] }

/-- Go: `(*log.Logger).Print(v...)`, which emits `fmt.Sprint(v...)` as one
line. -/
def Logger.Print (l : Logger) (v : List Value) : Logger :=
  { l with written := l.written ++ [Sprint v] }

/-- The observable effects of the constructor outside the logger heap: the
`os` calls it makes and the messages it sends to the standard logger of
package `log` (the diagnostic stream of the process). -/
inductive Event where
  | stat (name : String)
  | mkdirAll (path : String) (perm : Nat)
  | openFile (name : String) (flag : Nat) (perm : Nat)
  | diag (msg : String)
  deriving DecidableEq, Repr

/-- The environment of the process: the directory returned by `LogBaseDir()`
(a function of the package that is not part of `logging.go`; it is taken as
a parameter) and the outcome of each `os` call, `none` meaning success. -/
structure Env where
  LogBaseDir : String
  Stat : String → Option OSError
  MkdirAll : String → Nat → Option OSError
  OpenFile : String → Nat → Nat → Option OSError

/-! ## Process state -/

/-- Go: `type SentinelLogger struct { log *log.Logger; namespace string }`. -/
structure SentinelLogger where
  log : Logger
  namespace_ : String
  deriving DecidableEq, Repr

/-- A `*SentinelLogger`: `none` is `nil`, `some i` the address of the
`i`-th allocated logger. -/
abbrev Ptr := Option Nat

/-- The package-level variables `GlobalLogLevel`, `defaultLogger` and
`initLogger` (the `done` flag of the `sync.Once`), the heap of allocated
loggers, and the trace of effects performed so far. -/
structure State where
  GlobalLogLevel : Level
  defaultLogger : Ptr
  initLogger : Bool
  heap : List SentinelLogger
  trace : List Event
  deriving DecidableEq, Repr

/-- The variable initialisers of the `var` block: `GlobalLogLevel = Debug`,
a `nil` default logger and an unused `sync.Once`. -/
def initialState : State :=
  { GlobalLogLevel := Level.Debug, defaultLogger := none, initLogger := false,
    heap := [], trace := [] }

/-- How a call ends: it returns a value to its caller, the process exits
(`os.Exit`), or the goroutine panics. -/
inductive Outcome (α : Type) where
  | returned (a : α) (s : State)
  | exited (code : Nat) (s : State)
  | panicked (s : State)
  deriving DecidableEq, Repr

/-- Dereference a pointer. -/
def State.load (s : State) (l : Ptr) : Option SentinelLogger :=
  match l with
  | none => none
  | some i => s.heap[i]?

/-- Overwrite the logger at an address. -/
def State.store (s : State) (i : Nat) (lg : SentinelLogger) : State :=
  { s with heap := s.heap.set i lg }

/-- Append an effect to the trace. -/
def State.record (s : State) (e : Event) : State :=
  { s with trace := s.trace ++ [e] }

/-- The lines written so far through the logger at `l`. -/
def State.sink (s : State) (l : Ptr) : List String :=
  match s.load l with
  | none => []
  | some lg => lg.log.written

/-! ## The functions of `logging.go` -/

/-- Go: `func SetGlobalLoggerLevel(l Level) { GlobalLogLevel = l }`. -/
def SetGlobalLoggerLevel (l : Level) (s : State) : Outcome Unit :=
  .returned () { s with GlobalLogLevel := l }

/-- Go: `func GetDefaultLogger() *SentinelLogger { return defaultLogger }`. -/
def GetDefaultLogger (s : State) : Outcome Ptr :=
  .returned s.defaultLogger s

/-- Modelled from the spec: `addSeparatorIfNeeded` is a function of the
package that is not part of `logging.go`.  The spec roots every log file at
`<log-base-dir>/<name>`: the separator is appended to the directory unless
the directory already ends with it. -/
def addSeparatorIfNeeded (path : String) : String :=
  if path.data.getLast? = some PathSeparator then path
  else path ++ String.singleton PathSeparator

/-- Go: `createDirIfNotExists`. -/
def createDirIfNotExists (env : Env) (dirname : String) (s : State) :
    Option OSError × State :=
  match env.Stat dirname with
  | some err =>
    if err.notExist then
      (env.MkdirAll dirname ModePerm,
        (s.record (.stat dirname)).record (.mkdirAll dirname ModePerm))
    else
      (some err, s.record (.stat dirname))
  | none => (none, s.record (.stat dirname))

/-- Go: `NewSentinelFileLogger`.  `log.Printf` and `log.Fatalf` are applied
to the format `... %+v` and an error, which prints the `Error()` text of the
error; `log.Fatalf` then calls `os.Exit(1)`. -/
def NewSentinelFileLogger (env : Env) (outputFile ns : String) (flag : Int)
    (s : State) : Outcome Ptr :=
  let logDir := addSeparatorIfNeeded env.LogBaseDir
  let (err, s1) := createDirIfNotExists env logDir s
  let s2 := match err with
    | some e => s1.record (.diag ("Failed to create the log directory: " ++ e.msg))
    | none => s1
  let name := logDir ++ outputFile
  let mode := O_RDWR ||| O_CREATE ||| O_APPEND
  let s3 := s2.record (.openFile name mode 0o777)
  match env.OpenFile name mode 0o777 with
  | some e => .exited 1 (s3.record (.diag ("Failed to operate the log file: " ++ e.msg)))
  | none =>
    .returned (some s3.heap.length)
      { s3 with heap := s3.heap ++
          [{ log := Logger.New { name := name, flag := mode, perm := 0o777 } "" flag,
             namespace_ := ns }] }

/-- Go: `func init()`.  `initDefaultDir()` is not part of `logging.go`; it
fixes the directory that `LogBaseDir()` returns, which the environment
supplies.  `initLogger.Do(f)` runs `f` unless the once-guard is used up. -/
def init (env : Env) (s : State) : Outcome Unit :=
  if s.initLogger then .returned () s
  else
    match NewSentinelFileLogger env RecordLogFileName "default" LstdFlags s with
    | .returned p s1 => .returned () { s1 with defaultLogger := p, initLogger := true }
    | .exited code s1 => .exited code s1
    | .panicked s1 => .panicked s1

/-- Go: `merge`. -/
def merge (ns logLevel msg : String) : String :=
  Sprintf "[%s] [%s] %s" [.str ns, .str logLevel, .str msg]

/-- The statement `l.log.Print(merge(l.namespace, logLevel, msg))` that ends
each emit method.  Dereferencing a `nil` receiver panics. -/
def SentinelLogger.print (l : Ptr) (logLevel msg : String) (s : State) : Outcome Unit :=
  match l with
  | none => .panicked s
  | some i =>
    match s.heap[i]? with
    | none => .panicked s
    | some lg =>
      .returned ()
        (s.store i { lg with log := lg.log.Print [.str (merge lg.namespace_ logLevel msg)] })

/-- Go: `(*SentinelLogger).Debug`. -/
def SentinelLogger.Debug (l : Ptr) (v : List Value) (s : State) : Outcome Unit :=
  if Level.Debug < s.GlobalLogLevel ∨ v.length = 0 then .returned () s
  else SentinelLogger.print l "DEBUG" (Sprint v) s

/-- Go: `(*SentinelLogger).Debugf`. -/
def SentinelLogger.Debugf (l : Ptr) (format : String) (v : List Value) (s : State) :
    Outcome Unit :=
  if Level.Debug < s.GlobalLogLevel then .returned () s
  else SentinelLogger.print l "DEBUG" (Sprintf format v) s

/-- Go: `(*SentinelLogger).Info`. -/
def SentinelLogger.Info (l : Ptr) (v : List Value) (s : State) : Outcome Unit :=
  if Level.Info < s.GlobalLogLevel then .returned () s
  else SentinelLogger.print l "INFO" (Sprint v) s

/-- Go: `(*SentinelLogger).Infof`. -/
def SentinelLogger.Infof (l : Ptr) (format : String) (v : List Value) (s : State) :
    Outcome Unit :=
  if Level.Info < s.GlobalLogLevel then .returned () s
  else SentinelLogger.print l "INFO" (Sprintf format v) s

/-- Go: `(*SentinelLogger).Warn`. -/
def SentinelLogger.Warn (l : Ptr) (v : List Value) (s : State) : Outcome Unit :=
  if Level.Warn < s.GlobalLogLevel then .returned () s
  else SentinelLogger.print l "WARNING" (Sprint v) s

/-- Go: `(*SentinelLogger).Warnf`. -/
def SentinelLogger.Warnf (l : Ptr) (format : String) (v : List Value) (s : State) :
    Outcome Unit :=
  if Level.Warn < s.GlobalLogLevel then .returned () s
  else SentinelLogger.print l "WARNING" (Sprintf format v) s

/-- Go: `(*SentinelLogger).Error`. -/
def SentinelLogger.Error (l : Ptr) (v : List Value) (s : State) : Outcome Unit :=
  if Level.Error < s.GlobalLogLevel then .returned () s
  else SentinelLogger.print l "ERROR" (Sprint v) s

/-- Go: `(*SentinelLogger).Errorf`. -/
def SentinelLogger.Errorf (l : Ptr) (format : String) (v : List Value) (s : State) :
    Outcome Unit :=
  if Level.Error < s.GlobalLogLevel then .returned () s
  else SentinelLogger.print l "ERROR" (Sprintf format v) s

/-- Go: `(*SentinelLogger).Fatal`. -/
def SentinelLogger.Fatal (l : Ptr) (v : List Value) (s : State) : Outcome Unit :=
  if Level.Fatal < s.GlobalLogLevel then .returned () s
  else SentinelLogger.print l "FATAL" (Sprint v) s

/-- Go: `(*SentinelLogger).Fatalf`. -/
def SentinelLogger.Fatalf (l : Ptr) (format : String) (v : List Value) (s : State) :
    Outcome Unit :=
  if Level.Fatal < s.GlobalLogLevel then .returned () s
  else SentinelLogger.print l "FATAL" (Sprintf format v) s

/-- Go: `(*SentinelLogger).Panic`. -/
def SentinelLogger.Panic (l : Ptr) (v : List Value) (s : State) : Outcome Unit :=
  if Level.Panic < s.GlobalLogLevel then .returned () s
  else SentinelLogger.print l "PANIC" (Sprint v) s

/-- Go: `(*SentinelLogger).Panicf`. -/
def SentinelLogger.Panicf (l : Ptr) (format : String) (v : List Value) (s : State) :
    Outcome Unit :=
  if Level.Panic < s.GlobalLogLevel then .returned () s
  else SentinelLogger.print l "PANIC" (Sprintf format v) s

/-! ## Uniform view of the twelve emit methods -/

/-- The twelve emit methods of `SentinelLogger`. -/
inductive Method where
  | Debug | Debugf | Info | Infof | Warn | Warnf
  | Error | Errorf | Fatal | Fatalf | Panic | Panicf
  deriving DecidableEq, Repr

/-- Invoke an emit method.  The concatenate variants take no format
string and ignore the `format` argument. -/
def Method.call (m : Method) (l : Ptr) (format : String) (v : List Value) (s : State) :
    Outcome Unit :=
  match m with
  | .Debug => SentinelLogger.Debug l v s
  | .Debugf => SentinelLogger.Debugf l format v s
  | .Info => SentinelLogger.Info l v s
  | .Infof => SentinelLogger.Infof l format v s
  | .Warn => SentinelLogger.Warn l v s
  | .Warnf => SentinelLogger.Warnf l format v s
  | .Error => SentinelLogger.Error l v s
  | .Errorf => SentinelLogger.Errorf l format v s
  | .Fatal => SentinelLogger.Fatal l v s
  | .Fatalf => SentinelLogger.Fatalf l format v s
  | .Panic => SentinelLogger.Panic l v s
  | .Panicf => SentinelLogger.Panicf l format v s

/-- The level a method emits at. -/
def Method.level : Method → Level
  | .Debug | .Debugf => Level.Debug
  | .Info | .Infof => Level.Info
  | .Warn | .Warnf => Level.Warn
  | .Error | .Errorf => Level.Error
  | .Fatal | .Fatalf => Level.Fatal
  | .Panic | .Panicf => Level.Panic

/-- The label the spec assigns to the level of a method. -/
def Method.label : Method → String
  | .Debug | .Debugf => "DEBUG"
  | .Info | .Infof => "INFO"
  | .Warn | .Warnf => "WARNING"
  | .Error | .Errorf => "ERROR"
  | .Fatal | .Fatalf => "FATAL"
  | .Panic | .Panicf => "PANIC"

/-- Whether the method is a format variant. -/
def Method.formatted : Method → Bool
  | .Debugf | .Infof | .Warnf | .Errorf | .Fatalf | .Panicf => true
  | _ => false

/-- The message of a call: the default concatenation of the arguments, or
the format string applied to them. -/
def Method.message (m : Method) (format : String) (v : List Value) : String :=
  if m.formatted then Sprintf format v else Sprint v

/-- The line the spec prescribes for an accepted call. -/
def specLine (ns label msg : String) : String :=
  "[" ++ ns ++ "] [" ++ label ++ "] " ++ msg

/-- The state in which `line` has been appended to the sink of the logger
at `l` and nothing else differs. -/
def State.appendLine (s : State) (l : Ptr) (line : String) : State :=
  match l with
  | none => s
  | some i =>
    match s.heap[i]? with
    | none => s
    | some lg =>
      s.store i { lg with log := { lg.log with written := lg.log.written ++ [line] } }

/-! ## Client programs -/

/-- A call a client of the package can make. -/
inductive Call where
  | SetGlobalLoggerLevel (l : Level)
  | GetDefaultLogger
  | NewSentinelFileLogger (outputFile ns : String) (flag : Int)
  | emit (m : Method) (l : Ptr) (format : String) (v : List Value)
  deriving DecidableEq, Repr

/-- Forget the value a call returns. -/
def Outcome.void {α : Type} : Outcome α → Outcome Unit
  | .returned _ s => .returned () s
  | .exited code s => .exited code s
  | .panicked s => .panicked s

/-- Perform one call. -/
def Call.exec (env : Env) (c : Call) (s : State) : Outcome Unit :=
  match c with
  | .SetGlobalLoggerLevel l => Logging.SetGlobalLoggerLevel l s
  | .GetDefaultLogger => (Logging.GetDefaultLogger s).void
  | .NewSentinelFileLogger outputFile ns flag =>
    (Logging.NewSentinelFileLogger env outputFile ns flag s).void
  | .emit m l format v => m.call l format v s

/-- Perform a sequence of calls; an exit or a panic ends the run. -/
def run (env : Env) : List Call → State → Outcome Unit
  | [], s => .returned () s
  | c :: cs, s =>
    match c.exec env s with
    | .returned _ s1 => run env cs s1
    | .exited code s1 => .exited code s1
    | .panicked s1 => .panicked s1

/-- Process start: the variable initialisers followed by `init()`. -/
def processStart (env : Env) : Outcome Unit :=
  init env initialState

/-- The number of `os.OpenFile` calls in a trace. -/
def opens : List Event → Nat
  | [] => 0
  | .openFile _ _ _ :: es => opens es + 1
  | _ :: es => opens es

/-- Whether the call is `SetGlobalLoggerLevel`. -/
def Call.isSet : Call → Bool
  | .SetGlobalLoggerLevel _ => true
  | _ => false

/-- A whole process: process start followed by the calls of the client. -/
def runProcess (env : Env) (cs : List Call) : Outcome Unit :=
  match processStart env with
  | .returned _ s => run env cs s
  | .exited code s => .exited code s
  | .panicked s => .panicked s

/-- The state in which a call ends. -/
def Outcome.state {α : Type} : Outcome α → State
  | .returned _ s => s
  | .exited _ s => s
  | .panicked s => s

/-- The default logger exists: `defaultLogger` holds address 0, the
once-guard is used up, and the logger at address 0 has namespace `default`
and is bound to the record file under the base directory, opened for
appending, with the standard flags. -/
def DefaultLoggerBuilt (env : Env) (s : State) : Prop :=
  s.defaultLogger = some 0 ∧ s.initLogger = true ∧
  ∃ lg, s.load (some 0) = some lg ∧ lg.namespace_ = "default" ∧
    lg.log.out = { name := addSeparatorIfNeeded env.LogBaseDir ++ RecordLogFileName,
                   flag := O_RDWR ||| O_CREATE ||| O_APPEND, perm := 0o777 } ∧
    lg.log.pre = "" ∧ lg.log.flag = LstdFlags

/-! ## Format strings the model of `fmt.Sprintf` covers, and path names -/

/-- Whether every `%` of a format is directly followed by `%` or by one of
the verbs `v`, `s`, `d`, `T`. -/
def plainVerbs : List Char → Bool
  | [] => true
  | [c] => decide (c ≠ '%')
  | c :: d :: fs =>
    if c = '%' then
      decide (d = '%' ∨ d = 'v' ∨ d = 's' ∨ d = 'd' ∨ d = 'T') && plainVerbs fs
    else plainVerbs (d :: fs)

/-- The format strings on which `Sprintf` renders as `fmt.Sprintf` does:
literal text, `%%`, and the bare verbs `%v`, `%s`, `%d`, `%T`, without
flags, width, precision or argument indexes. -/
def inFragment (format : String) : Bool :=
  plainVerbs format.data

/-- The components of a path name: the pieces between separators. -/
def segments : List Char → List (List Char)
  | [] => [[]]
  | c :: cs =>
    if c = PathSeparator then [] :: segments cs
    else match segments cs with
      | [] => [[c]]
      | seg :: rest => (c :: seg) :: rest

/-- Lexical resolution of the components of a path name, starting in the
directory whose components are `dir`: an empty component and `.` stay in
place, `..` moves to the parent (the root is its own parent), any other
component descends.  Symbolic links are not modelled. -/
def resolveFrom (dir : List (List Char)) : List (List Char) → List (List Char)
  | [] => dir
  | seg :: rest =>
    if seg = [] ∨ seg = ['.'] then resolveFrom dir rest
    else if seg = ['.', '.'] then resolveFrom dir.dropLast rest
    else resolveFrom (dir ++ [seg]) rest

/-- The location a path name denotes: an absolute name is resolved from the
root, any other name from the working directory `cwd`. -/
def resolve (cwd : List (List Char)) (path : String) : List (List Char) :=
  resolveFrom (if path.data.head? = some PathSeparator then [] else cwd) (segments path.data)

/-! ## Sample inputs -/

/-- An environment in which every `os` call succeeds and the base directory
is `/logs`. -/
def okEnv : Env :=
  { LogBaseDir := "/logs", Stat := fun _ => none, MkdirAll := fun _ _ => none,
    OpenFile := fun _ _ _ => none }

/-- The state in which `processStart okEnv` returns: the default logger has
been built at address 0. -/
def startedState : State :=
  { GlobalLogLevel := 0, defaultLogger := some 0, initLogger := true,
    heap := [{ log := { out := { name := "/logs/sentinel-record.log", flag := 1090, perm := 511 },
                        pre := "", flag := 3, written := [] },
               namespace_ := "default" }],
    trace := [.stat "/logs/", .openFile "/logs/sentinel-record.log" 1090 511] }

/-- A logger with namespace `svc`, bound to `/logs/svc.log`, with an empty
sink. -/
def svcLogger : SentinelLogger :=
  { log := { out := { name := "/logs/svc.log", flag := 1090, perm := 511 },
             pre := "", flag := 3, written := [] },
    namespace_ := "svc" }

/-- The state reached from `startedState` by
`NewSentinelFileLogger("svc.log", "svc", log.LstdFlags)`: the new logger is
at address 1 and the threshold is still `Debug`. -/
def svcState : State :=
  { startedState with
    heap := startedState.heap ++ [svcLogger],
    trace := startedState.trace ++ [.stat "/logs/", .openFile "/logs/svc.log" 1090 511] }

/-- An environment in which the base directory is missing and cannot be
created, and the log file cannot be opened. -/
def brokenEnv : Env :=
  { LogBaseDir := "/logs",
    Stat := fun _ => some { msg := "stat /logs/: no such file or directory", notExist := true },
    MkdirAll := fun _ _ => some { msg := "mkdir /logs/: permission denied", notExist := false },
    OpenFile := fun _ _ _ =>
      some { msg := "open /logs/app.log: no such file or directory", notExist := true } }

/-- An environment in which inspecting the base directory fails although the
log file can be opened. -/
def statFailsEnv : Env :=
  { LogBaseDir := "/logs",
    Stat := fun _ => some { msg := "stat /logs/: input/output error", notExist := false },
    MkdirAll := fun _ _ => none,
    OpenFile := fun _ _ _ => none }

/-! ## Auxiliary lemmas -/

theorem Sprint_single_str (x : String) : Sprint [.str x] = x := by
  simp [Sprint, doPrint, printArg]

theorem Sprint_nil : Sprint [] = "" := by
  rfl

theorem merge_eq (ns logLevel msg : String) :
    merge ns logLevel msg = specLine ns logLevel msg := by
  apply String.ext
  simp [merge, specLine, Sprintf, doPrintf, printArg, extra]

theorem print_eq (l : Ptr) (logLevel msg : String) (s : State) (lg : SentinelLogger)
    (h : s.load l = some lg) :
    SentinelLogger.print l logLevel msg s =
      .returned () (s.appendLine l (specLine lg.namespace_ logLevel msg)) := by
  cases l with
  | none => simp [State.load] at h
  | some i =>
    simp only [State.load] at h
    simp [SentinelLogger.print, State.appendLine, h, Logger.Print, Sprint_single_str, merge_eq]

theorem call_eq (m : Method) (l : Ptr) (format : String) (v : List Value) (s : State) :
    m.call l format v s =
      if m.level < s.GlobalLogLevel ∨ (m = .Debug ∧ v = []) then .returned () s
      else SentinelLogger.print l m.label (m.message format v) s := by
  cases m <;>
    simp [Method.call, Method.level, Method.label, Method.message, Method.formatted,
      SentinelLogger.Debug, SentinelLogger.Debugf, SentinelLogger.Info, SentinelLogger.Infof,
      SentinelLogger.Warn, SentinelLogger.Warnf, SentinelLogger.Error, SentinelLogger.Errorf,
      SentinelLogger.Fatal, SentinelLogger.Fatalf, SentinelLogger.Panic, SentinelLogger.Panicf]

theorem call_filtered (m : Method) (l : Ptr) (format : String) (v : List Value) (s : State)
    (h : m.level < s.GlobalLogLevel) : m.call l format v s = .returned () s := by
  rw [call_eq]; simp [h]

theorem call_debug_nil (l : Ptr) (format : String) (s : State) :
    Method.call .Debug l format [] s = .returned () s := by
  rw [call_eq]; simp

theorem call_accepted (m : Method) (l : Ptr) (format : String) (v : List Value) (s : State)
    (lg : SentinelLogger) (hl : s.load l = some lg) (h : s.GlobalLogLevel ≤ m.level)
    (hq : ¬ (m = .Debug ∧ v = [])) :
    m.call l format v s =
      .returned () (s.appendLine l (specLine lg.namespace_ m.label (m.message format v))) := by
  rw [call_eq, print_eq l _ _ s lg hl]
  have h1 : ¬ (m.level < s.GlobalLogLevel) := Nat.not_lt.mpr h
  simp [h1, hq]

theorem load_some_lt (s : State) (i : Nat) (lg : SentinelLogger)
    (hl : s.load (some i) = some lg) : i < s.heap.length := by
  simp only [State.load] at hl
  by_contra hc
  rw [List.getElem?_eq_none (Nat.le_of_not_lt hc)] at hl
  cases hl

theorem appendLine_load (s : State) (l : Ptr) (line : String) (lg : SentinelLogger)
    (hl : s.load l = some lg) :
    (s.appendLine l line).load l =
      some { lg with log := { lg.log with written := lg.log.written ++ [line] } } := by
  cases l with
  | none => simp [State.load] at hl
  | some i =>
    have hlt := load_some_lt s i lg hl
    simp only [State.load] at hl
    simp [State.appendLine, State.load, State.store, hl, hlt]

theorem appendLine_sink (s : State) (l : Ptr) (line : String) (lg : SentinelLogger)
    (hl : s.load l = some lg) :
    (s.appendLine l line).sink l = s.sink l ++ [line] := by
  simp [State.sink, appendLine_load s l line lg hl, hl]

theorem appendLine_load_ne (s : State) (l k : Ptr) (line : String) (hk : k ≠ l) :
    (s.appendLine l line).load k = s.load k := by
  cases l with
  | none => rfl
  | some i =>
    cases k with
    | none => rfl
    | some j =>
      have hij : i ≠ j := fun h => hk (by rw [h])
      simp only [State.appendLine]
      cases hi : s.heap[i]? with
      | none => rfl
      | some lg => simp [State.load, State.store, List.getElem?_set_ne hij]

theorem appendLine_globals (s : State) (l : Ptr) (line : String) :
    (s.appendLine l line).GlobalLogLevel = s.GlobalLogLevel ∧
    (s.appendLine l line).defaultLogger = s.defaultLogger ∧
    (s.appendLine l line).initLogger = s.initLogger ∧
    (s.appendLine l line).trace = s.trace ∧
    (s.appendLine l line).heap.length = s.heap.length := by
  cases l with
  | none => simp [State.appendLine]
  | some i =>
    simp only [State.appendLine]
    cases hi : s.heap[i]? with
    | none => simp
    | some lg => simp [State.store]

theorem opens_append (a b : List Event) : opens (a ++ b) = opens a + opens b := by
  induction a with
  | nil => simp [opens]
  | cons e es ih => cases e <;> simp [opens, ih]; omega

theorem createDir_spec (env : Env) (dirname : String) (s : State) :
    ∃ es, (createDirIfNotExists env dirname s).2 = { s with trace := s.trace ++ es } ∧
      opens es = 0 := by
  unfold createDirIfNotExists
  cases hS : env.Stat dirname with
  | none => exact ⟨[.stat dirname], by simp [State.record], rfl⟩
  | some err =>
    by_cases hne : err.notExist
    · exact ⟨[.stat dirname, .mkdirAll dirname ModePerm], by simp [State.record, hne], rfl⟩
    · exact ⟨[.stat dirname], by simp [State.record, hne], rfl⟩

theorem new_spec (env : Env) (outputFile ns : String) (flag : Int) (s : State) :
    ∃ es, opens es = 0 ∧
      (createDirIfNotExists env (addSeparatorIfNeeded env.LogBaseDir) s).2
        = { s with trace := s.trace ++ es } ∧
      NewSentinelFileLogger env outputFile ns flag s =
        match env.OpenFile (addSeparatorIfNeeded env.LogBaseDir ++ outputFile)
            (O_RDWR ||| O_CREATE ||| O_APPEND) 0o777 with
        | some e =>
          .exited 1 { s with trace := s.trace ++ es ++
            (match (createDirIfNotExists env (addSeparatorIfNeeded env.LogBaseDir) s).1 with
              | some d => [.diag ("Failed to create the log directory: " ++ d.msg)]
              | none => []) ++
            [.openFile (addSeparatorIfNeeded env.LogBaseDir ++ outputFile)
                (O_RDWR ||| O_CREATE ||| O_APPEND) 0o777,
              .diag ("Failed to operate the log file: " ++ e.msg)] }
        | none =>
          .returned (some s.heap.length)
            { s with
              heap := s.heap ++
                [{ log := Logger.New
                    { name := addSeparatorIfNeeded env.LogBaseDir ++ outputFile,
                      flag := O_RDWR ||| O_CREATE ||| O_APPEND, perm := 0o777 } "" flag,
                   namespace_ := ns }],
              trace := s.trace ++ es ++
                (match (createDirIfNotExists env (addSeparatorIfNeeded env.LogBaseDir) s).1 with
                  | some d => [.diag ("Failed to create the log directory: " ++ d.msg)]
                  | none => []) ++
                [.openFile (addSeparatorIfNeeded env.LogBaseDir ++ outputFile)
                  (O_RDWR ||| O_CREATE ||| O_APPEND) 0o777] } := by
  obtain ⟨es, hes, h0⟩ := createDir_spec env (addSeparatorIfNeeded env.LogBaseDir) s
  refine ⟨es, h0, hes, ?_⟩
  cases hd : (createDirIfNotExists env (addSeparatorIfNeeded env.LogBaseDir) s) with
  | mk err s1 =>
    rw [hd] at hes
    simp only at hes
    subst hes
    simp only [NewSentinelFileLogger, hd]
    cases err <;>
      cases env.OpenFile (addSeparatorIfNeeded env.LogBaseDir ++ outputFile)
        (O_RDWR ||| O_CREATE ||| O_APPEND) 0o777 <;> simp [State.record]

theorem new_returned (env : Env) (outputFile ns : String) (flag : Int) (s s1 : State) (p : Ptr)
    (h : NewSentinelFileLogger env outputFile ns flag s = .returned p s1) :
    env.OpenFile (addSeparatorIfNeeded env.LogBaseDir ++ outputFile)
        (O_RDWR ||| O_CREATE ||| O_APPEND) 0o777 = none ∧
    p = some s.heap.length ∧
    s1.GlobalLogLevel = s.GlobalLogLevel ∧ s1.defaultLogger = s.defaultLogger ∧
    s1.initLogger = s.initLogger ∧
    s1.heap = s.heap ++
      [{ log := Logger.New
          { name := addSeparatorIfNeeded env.LogBaseDir ++ outputFile,
            flag := O_RDWR ||| O_CREATE ||| O_APPEND, perm := 0o777 } "" flag,
         namespace_ := ns }] ∧
    opens s1.trace = opens s.trace + 1 := by
  obtain ⟨es, h0, -, heq⟩ := new_spec env outputFile ns flag s
  rw [heq] at h
  cases hO : env.OpenFile (addSeparatorIfNeeded env.LogBaseDir ++ outputFile)
      (O_RDWR ||| O_CREATE ||| O_APPEND) 0o777 with
  | some e => rw [hO] at h; cases h
  | none =>
    rw [hO] at h
    simp only [Outcome.returned.injEq] at h
    obtain ⟨rfl, rfl⟩ := h
    refine ⟨rfl, rfl, rfl, rfl, rfl, rfl, ?_⟩
    cases (createDirIfNotExists env (addSeparatorIfNeeded env.LogBaseDir) s).1 <;>
      simp [opens_append, h0, opens]

theorem print_returned (l : Ptr) (logLevel msg : String) (s s1 : State)
    (h : SentinelLogger.print l logLevel msg s = .returned () s1) :
    ∃ lg, s.load l = some lg ∧ s1 = s.appendLine l (specLine lg.namespace_ logLevel msg) := by
  cases hl : s.load l with
  | none =>
    cases l with
    | none => simp [SentinelLogger.print] at h
    | some i =>
      simp only [State.load] at hl
      simp [SentinelLogger.print, hl] at h
  | some lg =>
    rw [print_eq l logLevel msg s lg hl] at h
    simp only [Outcome.returned.injEq, true_and] at h
    exact ⟨lg, rfl, h.symm⟩

theorem call_returned (m : Method) (l : Ptr) (format : String) (v : List Value) (s s1 : State)
    (h : m.call l format v s = .returned () s1) :
    s1 = s ∨ ∃ line, s1 = s.appendLine l line := by
  rw [call_eq] at h
  split at h
  · simp only [Outcome.returned.injEq, true_and] at h
    exact Or.inl h.symm
  · obtain ⟨lg, -, hs⟩ := print_returned l _ _ s s1 h
    exact Or.inr ⟨_, hs⟩

theorem exec_level (env : Env) (c : Call) (s s1 : State) (hc : c.isSet = false)
    (h : c.exec env s = .returned () s1) : s1.GlobalLogLevel = s.GlobalLogLevel := by
  cases c with
  | SetGlobalLoggerLevel lv => simp [Call.isSet] at hc
  | GetDefaultLogger =>
    simp only [Call.exec, GetDefaultLogger, Outcome.void, Outcome.returned.injEq, true_and] at h
    rw [← h]
  | NewSentinelFileLogger outputFile ns flag =>
    simp only [Call.exec] at h
    cases hn : Logging.NewSentinelFileLogger env outputFile ns flag s with
    | returned p s2 =>
      rw [hn] at h
      simp only [Outcome.void, Outcome.returned.injEq, true_and] at h
      subst h
      exact (new_returned env outputFile ns flag s s2 p hn).2.2.1
    | exited code s2 => rw [hn] at h; simp [Outcome.void] at h
    | panicked s2 => rw [hn] at h; simp [Outcome.void] at h
  | emit m l format v =>
    simp only [Call.exec] at h
    rcases call_returned m l format v s s1 h with rfl | ⟨line, rfl⟩
    · rfl
    · exact (appendLine_globals s l line).1

theorem run_level (env : Env) (cs : List Call) (s s1 : State)
    (hcs : ∀ c ∈ cs, c.isSet = false)
    (h : run env cs s = .returned () s1) : s1.GlobalLogLevel = s.GlobalLogLevel := by
  induction cs generalizing s with
  | nil =>
    simp only [run, Outcome.returned.injEq, true_and] at h
    rw [← h]
  | cons c cs ih =>
    simp only [run] at h
    cases hc : c.exec env s with
    | returned u s2 =>
      rw [hc] at h
      simp only at h
      rw [ih s2 (fun d hd => hcs d (List.mem_cons_of_mem c hd)) h]
      exact exec_level env c s s2 (hcs c (List.mem_cons_self c cs)) hc
    | exited code s2 => rw [hc] at h; cases h
    | panicked s2 => rw [hc] at h; cases h

theorem processStart_returned (env : Env) (s : State)
    (h : processStart env = .returned () s) :
    env.OpenFile (addSeparatorIfNeeded env.LogBaseDir ++ RecordLogFileName)
        (O_RDWR ||| O_CREATE ||| O_APPEND) 0o777 = none ∧
    s.GlobalLogLevel = Level.Debug ∧ s.defaultLogger = some 0 ∧ s.initLogger = true ∧
    s.heap =
      [{ log := Logger.New
          { name := addSeparatorIfNeeded env.LogBaseDir ++ RecordLogFileName,
            flag := O_RDWR ||| O_CREATE ||| O_APPEND, perm := 0o777 } "" LstdFlags,
         namespace_ := "default" }] ∧
    opens s.trace = 1 := by
  simp only [processStart, init, initialState] at h
  cases hn : NewSentinelFileLogger env RecordLogFileName "default" LstdFlags
      { GlobalLogLevel := Level.Debug, defaultLogger := none, initLogger := false,
        heap := [], trace := [] } with
  | returned p s2 =>
    rw [hn] at h
    simp only [Bool.false_eq_true, if_false, Outcome.returned.injEq, true_and] at h
    obtain ⟨hO, hp, hg, -, -, hh, ho⟩ := new_returned env _ _ _ _ s2 p hn
    subst h
    subst hp
    exact ⟨hO, hg, rfl, rfl, by simpa using hh, by simpa [opens] using ho⟩
  | exited code s2 => rw [hn] at h; simp at h
  | panicked s2 => rw [hn] at h; simp at h

theorem built_appendLine (env : Env) (s : State) (l : Ptr) (line : String)
    (hI : DefaultLoggerBuilt env s) : DefaultLoggerBuilt env (s.appendLine l line) := by
  obtain ⟨hd, hi, lg, hl, hn, ho, hp, hf⟩ := hI
  have hg := appendLine_globals s l line
  refine ⟨by rw [hg.2.1, hd], by rw [hg.2.2.1, hi], ?_⟩
  by_cases hk : (some 0 : Ptr) = l
  · subst hk
    exact ⟨_, appendLine_load s (some 0) line lg hl, hn, ho, hp, hf⟩
  · exact ⟨lg, by rw [appendLine_load_ne s l (some 0) line hk, hl], hn, ho, hp, hf⟩

theorem exec_built (env : Env) (c : Call) (s s1 : State) (hI : DefaultLoggerBuilt env s)
    (h : c.exec env s = .returned () s1) : DefaultLoggerBuilt env s1 := by
  cases c with
  | SetGlobalLoggerLevel lv =>
    simp only [Call.exec, SetGlobalLoggerLevel, Outcome.returned.injEq, true_and] at h
    subst h
    exact hI
  | GetDefaultLogger =>
    simp only [Call.exec, GetDefaultLogger, Outcome.void, Outcome.returned.injEq, true_and] at h
    subst h
    exact hI
  | NewSentinelFileLogger outputFile ns flag =>
    simp only [Call.exec] at h
    cases hn : Logging.NewSentinelFileLogger env outputFile ns flag s with
    | returned p s2 =>
      rw [hn] at h
      simp only [Outcome.void, Outcome.returned.injEq, true_and] at h
      subst h
      obtain ⟨-, -, -, hd2, hi2, hh, -⟩ := new_returned env outputFile ns flag s s2 p hn
      obtain ⟨hd, hi, lg, hl, hrest⟩ := hI
      have hlt := load_some_lt s 0 lg hl
      refine ⟨by rw [hd2, hd], by rw [hi2, hi], lg, ?_, hrest⟩
      simp only [State.load] at hl ⊢
      rw [hh, List.getElem?_append_left hlt, hl]
    | exited code s2 => rw [hn] at h; simp [Outcome.void] at h
    | panicked s2 => rw [hn] at h; simp [Outcome.void] at h
  | emit m l format v =>
    simp only [Call.exec] at h
    rcases call_returned m l format v s s1 h with rfl | ⟨line, rfl⟩
    · exact hI
    · exact built_appendLine env s l line hI

theorem run_built (env : Env) (cs : List Call) (s s1 : State) (hI : DefaultLoggerBuilt env s)
    (h : run env cs s = .returned () s1) : DefaultLoggerBuilt env s1 := by
  induction cs generalizing s with
  | nil =>
    simp only [run, Outcome.returned.injEq, true_and] at h
    subst h
    exact hI
  | cons c cs ih =>
    simp only [run] at h
    cases hc : c.exec env s with
    | returned u s2 =>
      rw [hc] at h
      exact ih s2 (exec_built env c s s2 hI hc) h
    | exited code s2 => rw [hc] at h; cases h
    | panicked s2 => rw [hc] at h; cases h

theorem run_replicate_get (env : Env) (n : Nat) (s : State) :
    run env (List.replicate n .GetDefaultLogger) s = .returned () s := by
  induction n with
  | zero => rfl
  | succ k ih => simpa [List.replicate, run, Call.exec, GetDefaultLogger, Outcome.void] using ih

theorem new_trace (env : Env) (outputFile ns : String) (flag : Int) (s : State) :
    ∃ pre post,
      (NewSentinelFileLogger env outputFile ns flag s).state.trace =
        s.trace ++ pre ++
          [.openFile (addSeparatorIfNeeded env.LogBaseDir ++ outputFile)
            (O_RDWR ||| O_CREATE ||| O_APPEND) 0o777] ++ post ∧
      opens pre = 0 ∧ opens post = 0 := by
  obtain ⟨es, h0, -, heq⟩ := new_spec env outputFile ns flag s
  rw [heq]
  refine ⟨es ++ (match (createDirIfNotExists env (addSeparatorIfNeeded env.LogBaseDir) s).1 with
      | some d => [.diag ("Failed to create the log directory: " ++ d.msg)]
      | none => []),
    (match env.OpenFile (addSeparatorIfNeeded env.LogBaseDir ++ outputFile)
        (O_RDWR ||| O_CREATE ||| O_APPEND) 0o777 with
      | some e => [.diag ("Failed to operate the log file: " ++ e.msg)]
      | none => []), ?_, ?_, ?_⟩
  · cases env.OpenFile (addSeparatorIfNeeded env.LogBaseDir ++ outputFile)
        (O_RDWR ||| O_CREATE ||| O_APPEND) 0o777 <;> simp [Outcome.state]
  · cases (createDirIfNotExists env (addSeparatorIfNeeded env.LogBaseDir) s).1 <;>
      simp [opens_append, h0, opens]
  · cases env.OpenFile (addSeparatorIfNeeded env.LogBaseDir ++ outputFile)
        (O_RDWR ||| O_CREATE ||| O_APPEND) 0o777 <;> simp [opens]

theorem init_state_trace (env : Env) (s : State) (h : s.initLogger = false) :
    (init env s).state.trace =
      (NewSentinelFileLogger env RecordLogFileName "default" LstdFlags s).state.trace := by
  simp only [init, h]
  cases NewSentinelFileLogger env RecordLogFileName "default" LstdFlags s <;>
    simp [Outcome.state]

theorem addSeparator_cases (path : String) :
    (path.data.getLast? = some PathSeparator ∧ addSeparatorIfNeeded path = path) ∨
    (path.data.getLast? ≠ some PathSeparator ∧ addSeparatorIfNeeded path = path ++ "/") := by
  by_cases h : path.data.getLast? = some PathSeparator
  · exact Or.inl ⟨h, by simp [addSeparatorIfNeeded, h]⟩
  · refine Or.inr ⟨h, ?_⟩
    simp only [addSeparatorIfNeeded, h, if_false]
    rfl

theorem doPrintf_plain (cs : List Char) (h : '%' ∉ cs) : doPrintf cs [] = cs := by
  induction cs with
  | nil => rfl
  | cons c tail ih =>
    have hc : c ≠ '%' := fun e => h (by rw [e]; exact List.mem_cons_self _ _)
    have ht : '%' ∉ tail := fun m => h (List.mem_cons_of_mem c m)
    cases tail with
    | nil => simp [doPrintf, hc, extra]
    | cons d fs =>
      rw [doPrintf, if_neg hc, ih ht]

theorem inFragment_examples :
    inFragment "code=%d" = true ∧ inFragment "[%s] [%s] %s" = true ∧
    inFragment "100%% done" = true ∧ inFragment "%x" = false ∧
    inFragment "100% load" = false ∧ inFragment "%5d" = false ∧
    inFragment "%+v" = false := by
  decide

theorem segments_ne_nil (cs : List Char) : segments cs ≠ [] := by
  cases cs with
  | nil => simp [segments]
  | cons c cs =>
    simp only [segments]
    split
    · simp
    · split <;> simp

theorem segments_append_sep (a b : List Char) :
    segments (a ++ PathSeparator :: b) = segments a ++ segments b := by
  induction a with
  | nil => simp [segments]
  | cons c cs ih =>
    rw [List.cons_append, segments, ih, segments]
    by_cases hc : c = PathSeparator
    · simp [hc]
    · simp only [hc, if_false]
      cases hs : segments cs with
      | nil => exact absurd hs (segments_ne_nil cs)
      | cons seg rest => simp

theorem resolveFrom_append (dir : List (List Char)) (xs ys : List (List Char)) :
    resolveFrom dir (xs ++ ys) = resolveFrom (resolveFrom dir xs) ys := by
  induction xs generalizing dir with
  | nil => rfl
  | cons seg rest ih =>
    simp only [List.cons_append, resolveFrom]
    split
    · exact ih dir
    · split
      · exact ih _
      · exact ih _

theorem resolveFrom_extends (dir : List (List Char)) (ys : List (List Char))
    (h : ∀ seg ∈ ys, seg ≠ ['.', '.']) :
    ∃ rest, resolveFrom dir ys = dir ++ rest := by
  induction ys generalizing dir with
  | nil => exact ⟨[], by simp [resolveFrom]⟩
  | cons seg rest ih =>
    have hrest : ∀ x ∈ rest, x ≠ ['.', '.'] := fun x hx => h x (List.mem_cons_of_mem seg hx)
    have hseg : seg ≠ ['.', '.'] := h seg (List.mem_cons_self seg rest)
    rw [resolveFrom]
    by_cases h1 : seg = [] ∨ seg = ['.']
    · rw [if_pos h1]
      exact ih dir hrest
    · rw [if_neg h1, if_neg hseg]
      obtain ⟨r, hr⟩ := ih (dir ++ [seg]) hrest
      exact ⟨seg :: r, by rw [hr]; simp⟩

theorem addSeparator_data (base : String) :
    ∃ d, (addSeparatorIfNeeded base).data = d ++ [PathSeparator] ∧
      segments base.data = segments d ∨
      (addSeparatorIfNeeded base).data = d ++ [PathSeparator] ∧
      segments base.data = segments d ++ [[]] := by
  rcases addSeparator_cases base with ⟨h1, h⟩ | ⟨-, h⟩
  · have hne : base.data ≠ [] := by
      intro h0; rw [h0] at h1; simp at h1
    have hl := List.dropLast_append_getLast hne
    rw [List.getLast?_eq_getLast _ hne] at h1
    simp only [Option.some.injEq] at h1
    rw [h1] at hl
    refine ⟨base.data.dropLast, Or.inr ⟨by rw [h]; exact hl.symm, ?_⟩⟩
    conv_lhs => rw [← hl]
    change segments (base.data.dropLast ++ PathSeparator :: []) = _
    rw [segments_append_sep]
    rfl
  · exact ⟨base.data, Or.inl ⟨by rw [h]; rfl, rfl⟩⟩

theorem resolveFrom_under (dir : List (List Char)) (base outputFile : String) :
    resolveFrom dir (segments (addSeparatorIfNeeded base ++ outputFile).data) =
      resolveFrom (resolveFrom dir (segments base.data)) (segments outputFile.data) := by
  obtain ⟨d, ⟨hd, hs⟩ | ⟨hd, hs⟩⟩ := addSeparator_data base
  · rw [String.data_append, hd, List.append_assoc, List.singleton_append,
      segments_append_sep, resolveFrom_append, hs]
  · rw [String.data_append, hd, List.append_assoc, List.singleton_append,
      segments_append_sep, resolveFrom_append, hs, resolveFrom_append]
    simp [resolveFrom]

theorem resolve_under (cwd : List (List Char)) (base outputFile : String)
    (hb : base ≠ "") :
    resolve cwd (addSeparatorIfNeeded base ++ outputFile) =
      resolveFrom (resolve cwd base) (segments outputFile.data) := by
  have hne : base.data ≠ [] := fun h0 => hb (String.ext h0)
  have hhead : (addSeparatorIfNeeded base ++ outputFile).data.head? = base.data.head? := by
    rcases addSeparator_cases base with ⟨-, h⟩ | ⟨-, h⟩
    · rw [h, String.data_append]
      cases hbd : base.data with
      | nil => exact absurd hbd hne
      | cons c cs => rfl
    · rw [h, String.data_append, String.data_append]
      cases hbd : base.data with
      | nil => exact absurd hbd hne
      | cons c cs => rfl
  simp only [resolve, hhead]
  exact resolveFrom_under _ base outputFile

/-! ## Level filter and line format -/

/-- C1: with the global threshold set to `L2`, every emit method whose level
is below `L2` writes nothing (the state is returned unchanged), and every emit
method whose level is at or above `L2` appends exactly one line to the sink of
the logger it is called on; this holds for every logger, every format string
and every argument list, the empty one included. -/
theorem threshold_filters_below_and_accepts_from (L2 : Level) (m1 : Method) (l : Ptr)
    (lg : SentinelLogger) (format : String) (v : List Value) (s0 s : State)
    (hset : SetGlobalLoggerLevel L2 s0 = .returned () s)
    (hl : s.load l = some lg)
    (h12 : m1.level < L2) :
    m1.call l format v s = .returned () s ∧
    ∀ m : Method, L2 ≤ m.level →
      ∃ line, m.call l format v s = .returned () (s.appendLine l line) ∧
        (s.appendLine l line).sink l = s.sink l ++ [line] := by
  have hT : s.GlobalLogLevel = L2 := by
    simp only [SetGlobalLoggerLevel, Outcome.returned.injEq, true_and] at hset
    rw [← hset]
  refine ⟨call_filtered m1 l format v s (by rw [hT]; exact h12), ?_⟩
  intro m hm
  refine ⟨specLine lg.namespace_ m.label (m.message format v), ?_, appendLine_sink s l _ lg hl⟩
  apply call_accepted m l format v s lg hl (by rw [hT]; exact hm)
  rintro ⟨rfl, -⟩
  have h0 : m1.level < 0 := Nat.lt_of_lt_of_le h12 hm
  exact Nat.not_lt_zero _ h0

/-- Witness of C1: after `SetGlobalLoggerLevel(Warn)`, `Info()` with no
arguments writes nothing and `Error()` with no arguments appends one line. -/
theorem threshold_filters_below_and_accepts_from_witness :
    SetGlobalLoggerLevel Level.Warn svcState
        = .returned () { svcState with GlobalLogLevel := Level.Warn } ∧
    State.load { svcState with GlobalLogLevel := Level.Warn } (some 1) = some svcLogger ∧
    Method.level .Info < Level.Warn ∧
    Method.call .Info (some 1) "" [] { svcState with GlobalLogLevel := Level.Warn }
        = .returned () { svcState with GlobalLogLevel := Level.Warn } ∧
    ∃ line, Method.call .Error (some 1) "" [] { svcState with GlobalLogLevel := Level.Warn }
        = .returned () (State.appendLine { svcState with GlobalLogLevel := Level.Warn } (some 1) line) ∧
      State.sink (State.appendLine { svcState with GlobalLogLevel := Level.Warn } (some 1) line) (some 1)
        = State.sink { svcState with GlobalLogLevel := Level.Warn } (some 1) ++ [line] :=
  ⟨rfl, rfl, by decide,
    (threshold_filters_below_and_accepts_from Level.Warn .Info (some 1) svcLogger "" [] svcState
      { svcState with GlobalLogLevel := Level.Warn } rfl rfl (by decide)).1,
    (threshold_filters_below_and_accepts_from Level.Warn .Info (some 1) svcLogger "" [] svcState
      { svcState with GlobalLogLevel := Level.Warn } rfl rfl (by decide)).2 .Error (by decide)⟩

/-- C2: whenever a call of any of the twelve emit methods is accepted (the
level of the method is at or above the threshold, and the call is not the
concatenate-form `Debug` without arguments), exactly one string is handed to
the sink and it is `"[" ++ namespace ++ "] [" ++ LABEL ++ "] " ++ message`,
where `LABEL` is `DEBUG`, `INFO`, `WARNING`, `ERROR`, `FATAL`, `PANIC` for the
respective level.  For a concatenate variant `message` is `fmt.Sprint` of the
arguments.  For a format variant `message` is the format applied to the
arguments; it is identified with the modelled `Sprintf` for the formats the
model covers (`inFragment`), the only ones on which the model is `fmt.Sprintf`. -/
theorem accepted_line_format (m : Method) (l : Ptr) (lg : SentinelLogger) (format : String)
    (v : List Value) (s : State)
    (hl : s.load l = some lg)
    (hacc : s.GlobalLogLevel ≤ m.level)
    (hq : ¬ (m = .Debug ∧ v = [])) :
    (∃ message : String,
      m.call l format v s =
        .returned () (s.appendLine l
          ("[" ++ lg.namespace_ ++ "] [" ++ m.label ++ "] " ++ message)) ∧
      (s.appendLine l
          ("[" ++ lg.namespace_ ++ "] [" ++ m.label ++ "] " ++ message)).sink l
        = s.sink l ++ ["[" ++ lg.namespace_ ++ "] [" ++ m.label ++ "] " ++ message] ∧
      (m.formatted = false → message = Sprint v) ∧
      (m.formatted = true → inFragment format = true → message = Sprintf format v)) ∧
    m.label = (match m.level with
      | 0 => "DEBUG" | 1 => "INFO" | 2 => "WARNING" | 3 => "ERROR" | 4 => "FATAL"
      | _ => "PANIC") := by
  refine ⟨⟨m.message format v, call_accepted m l format v s lg hl hacc hq,
    appendLine_sink s l _ lg hl, fun h => ?_, fun h _ => ?_⟩, by cases m <;> rfl⟩
  · simp [Method.message, h]
  · simp [Method.message, h]

/-- Witness of C2: with namespace `svc` and threshold `Debug`,
`Warn("disk low")` hands `[svc] [WARNING] disk low` to the sink and
`Errorf("code=%d", 42)` hands `[svc] [ERROR] code=42` to it. -/
theorem accepted_line_format_witness :
    State.load svcState (some 1) = some svcLogger ∧
    svcState.GlobalLogLevel = Level.Debug ∧
    inFragment "code=%d" = true ∧
    SentinelLogger.Warn (some 1) [.str "disk low"] svcState
      = .returned () (svcState.appendLine (some 1) "[svc] [WARNING] disk low") ∧
    (svcState.appendLine (some 1) "[svc] [WARNING] disk low").sink (some 1)
      = ["[svc] [WARNING] disk low"] ∧
    SentinelLogger.Errorf (some 1) "code=%d" [.int 42] svcState
      = .returned () (svcState.appendLine (some 1) "[svc] [ERROR] code=42") ∧
    (svcState.appendLine (some 1) "[svc] [ERROR] code=42").sink (some 1)
      = ["[svc] [ERROR] code=42"] := by
  obtain ⟨⟨w, hw1, hw2, hw3, -⟩, -⟩ :=
    accepted_line_format .Warn (some 1) svcLogger "" [.str "disk low"] svcState rfl
      (by decide) (by decide)
  obtain ⟨⟨e, he1, he2, -, he4⟩, -⟩ :=
    accepted_line_format .Errorf (some 1) svcLogger "code=%d" [.int 42] svcState rfl
      (by decide) (by decide)
  rw [hw3 rfl] at hw1 hw2
  rw [he4 rfl (by decide)] at he1 he2
  exact ⟨rfl, rfl, by decide, hw1, hw2, he1, he2⟩

/-- C3: with the global threshold at `Debug`, for every logger, `Debug` with
no arguments writes nothing, and `Debug` with an argument list of length at
least one appends exactly one line to the sink. -/
theorem debug_without_arguments_is_silent (l : Ptr) (lg : SentinelLogger) (v : List Value)
    (s : State)
    (hT : s.GlobalLogLevel = Level.Debug)
    (hl : s.load l = some lg) :
    SentinelLogger.Debug l [] s = .returned () s ∧
    (1 ≤ v.length →
      ∃ line, SentinelLogger.Debug l v s = .returned () (s.appendLine l line) ∧
        (s.appendLine l line).sink l = s.sink l ++ [line]) := by
  refine ⟨call_debug_nil l "" s, fun hv => ?_⟩
  refine ⟨specLine lg.namespace_ "DEBUG" (Sprint v), ?_, appendLine_sink s l _ lg hl⟩
  have hne : ¬ (Method.Debug = .Debug ∧ v = []) := by
    rintro ⟨-, rfl⟩
    simp at hv
  exact call_accepted .Debug l "" v s lg hl (by rw [hT]; exact Nat.zero_le _) hne

/-- Witness of C3: at threshold `Debug`, `Debug()` leaves the empty sink of
the `svc` logger empty and `Debug("x")` puts one line into it. -/
theorem debug_without_arguments_is_silent_witness :
    svcState.GlobalLogLevel = Level.Debug ∧
    State.load svcState (some 1) = some svcLogger ∧
    SentinelLogger.Debug (some 1) [] svcState = .returned () svcState ∧
    ∃ line, SentinelLogger.Debug (some 1) [.str "x"] svcState
        = .returned () (svcState.appendLine (some 1) line) ∧
      (svcState.appendLine (some 1) line).sink (some 1) = svcState.sink (some 1) ++ [line] :=
  ⟨rfl, rfl,
    (debug_without_arguments_is_silent (some 1) svcLogger [.str "x"] svcState rfl rfl).1,
    (debug_without_arguments_is_silent (some 1) svcLogger [.str "x"] svcState rfl rfl).2
      (by decide)⟩

/-- C4: for every logger, every threshold, every format string and every
argument list, each of the twelve emit methods (so also `Fatal`, `Fatalf`,
`Panic` and `Panicf`) returns to its caller: it neither exits the process nor
panics.  Its only effect is on the sink of the logger it is called on, which
is left as it was or extended by one line; the global variables, the trace of
`os` calls and diagnostics, every other logger, and the namespace, file and
flags of this logger are unchanged.  The sink is extended only if the level of
the method is at or above the threshold. -/
theorem emit_returns_and_only_appends (m : Method) (l : Ptr) (lg : SentinelLogger)
    (format : String) (v : List Value) (s : State)
    (hl : s.load l = some lg) :
    ∃ s1 lg1, m.call l format v s = .returned () s1 ∧
      s1.GlobalLogLevel = s.GlobalLogLevel ∧ s1.defaultLogger = s.defaultLogger ∧
      s1.initLogger = s.initLogger ∧ s1.trace = s.trace ∧
      s1.heap.length = s.heap.length ∧
      (∀ k : Ptr, k ≠ l → s1.load k = s.load k) ∧
      s1.load l = some lg1 ∧
      lg1.namespace_ = lg.namespace_ ∧ lg1.log.out = lg.log.out ∧
      lg1.log.pre = lg.log.pre ∧ lg1.log.flag = lg.log.flag ∧
      (lg1.log.written = lg.log.written ∨
        ∃ line, lg1.log.written = lg.log.written ++ [line]) ∧
      (lg1.log.written ≠ lg.log.written → s.GlobalLogLevel ≤ m.level) := by
  by_cases hf : m.level < s.GlobalLogLevel ∨ (m = .Debug ∧ v = [])
  · refine ⟨s, lg, ?_, rfl, rfl, rfl, rfl, rfl, fun _ _ => rfl, hl, rfl, rfl, rfl, rfl,
      Or.inl rfl, fun h => absurd rfl h⟩
    rw [call_eq]; simp [hf]
  · have hacc : s.GlobalLogLevel ≤ m.level := Nat.le_of_not_lt (fun h => hf (Or.inl h))
    have hq : ¬ (m = .Debug ∧ v = []) := fun h => hf (Or.inr h)
    have hg := appendLine_globals s l (specLine lg.namespace_ m.label (m.message format v))
    exact ⟨_, _, call_accepted m l format v s lg hl hacc hq, hg.1, hg.2.1, hg.2.2.1,
      hg.2.2.2.1, hg.2.2.2.2, fun k hk => appendLine_load_ne s l k _ hk,
      appendLine_load s l _ lg hl, rfl, rfl, rfl, rfl, Or.inr ⟨_, rfl⟩, fun _ => hacc⟩

/-- Witness of C4: `Fatal("boom")` and `Panicf("%d", 7)` on the `svc` logger
return, each leaving one line in the sink. -/
theorem emit_returns_and_only_appends_witness :
    State.load svcState (some 1) = some svcLogger ∧
    SentinelLogger.Fatal (some 1) [.str "boom"] svcState
      = .returned () (svcState.appendLine (some 1) "[svc] [FATAL] boom") ∧
    SentinelLogger.Panicf (some 1) "%d" [.int 7] svcState
      = .returned () (svcState.appendLine (some 1) "[svc] [PANIC] 7") ∧
    ∃ s1 lg1, Method.call .Fatal (some 1) "" [.str "boom"] svcState = .returned () s1 ∧
      s1.GlobalLogLevel = svcState.GlobalLogLevel ∧ s1.defaultLogger = svcState.defaultLogger ∧
      s1.initLogger = svcState.initLogger ∧ s1.trace = svcState.trace ∧
      s1.heap.length = svcState.heap.length ∧
      (∀ k : Ptr, k ≠ some 1 → s1.load k = svcState.load k) ∧
      s1.load (some 1) = some lg1 ∧
      lg1.namespace_ = svcLogger.namespace_ ∧ lg1.log.out = svcLogger.log.out ∧
      lg1.log.pre = svcLogger.log.pre ∧ lg1.log.flag = svcLogger.log.flag ∧
      (lg1.log.written = svcLogger.log.written ∨
        ∃ line, lg1.log.written = svcLogger.log.written ++ [line]) ∧
      (lg1.log.written ≠ svcLogger.log.written →
        svcState.GlobalLogLevel ≤ Method.level .Fatal) :=
  ⟨rfl, by decide, by decide,
    emit_returns_and_only_appends .Fatal (some 1) svcLogger "" [.str "boom"] svcState rfl⟩

/-- C7: the no-argument no-op exists only for the concatenate-form `Debug`.
At every threshold `Debug()` writes nothing, while every other emit method
whose level is at or above the threshold, called with an empty argument list,
still appends exactly one line: `"[" ++ namespace ++ "] [" ++ LABEL ++ "] "`
followed by the message.  The message is empty for a concatenate variant; for
a format variant (`Debugf` included) it is the format applied to no
arguments, which is the format itself when it contains no `%`, and the
modelled `Sprintf format []` for the formats the model covers. -/
theorem only_debug_drops_empty_calls (m : Method) (l : Ptr) (lg : SentinelLogger)
    (format : String) (s : State)
    (hl : s.load l = some lg)
    (hT : s.GlobalLogLevel ≤ m.level)
    (hm : m ≠ .Debug) :
    SentinelLogger.Debug l [] s = .returned () s ∧
    ∃ message : String,
      m.call l format [] s =
        .returned () (s.appendLine l
          ("[" ++ lg.namespace_ ++ "] [" ++ m.label ++ "] " ++ message)) ∧
      (s.appendLine l
          ("[" ++ lg.namespace_ ++ "] [" ++ m.label ++ "] " ++ message)).sink l
        = s.sink l ++ ["[" ++ lg.namespace_ ++ "] [" ++ m.label ++ "] " ++ message] ∧
      (m.formatted = false → message = "") ∧
      (m.formatted = true → '%' ∉ format.data → message = format) ∧
      (m.formatted = true → inFragment format = true → message = Sprintf format []) := by
  refine ⟨call_debug_nil l "" s, m.message format [],
    call_accepted m l format [] s lg hl hT (fun h => hm h.1), appendLine_sink s l _ lg hl,
    fun h => ?_, fun h hp => ?_, fun h _ => ?_⟩
  · simp [Method.message, h, Sprint_nil]
  · simp only [Method.message, h, if_true, Sprintf]
    rw [doPrintf_plain format.data hp]
  · simp [Method.message, h]

/-- Witness of C7: at threshold `Debug`, `Debugf("ready")` and `Info()` with
no arguments each write a line, the latter with an empty message. -/
theorem only_debug_drops_empty_calls_witness :
    State.load svcState (some 1) = some svcLogger ∧
    svcState.GlobalLogLevel ≤ Method.level .Debugf ∧
    SentinelLogger.Debug (some 1) [] svcState = .returned () svcState ∧
    SentinelLogger.Debugf (some 1) "ready" [] svcState
      = .returned () (svcState.appendLine (some 1) "[svc] [DEBUG] ready") ∧
    SentinelLogger.Info (some 1) [] svcState
      = .returned () (svcState.appendLine (some 1) "[svc] [INFO] ") ∧
    (svcState.appendLine (some 1) "[svc] [INFO] ").sink (some 1) = ["[svc] [INFO] "] := by
  obtain ⟨hd, d, hd1, -, -, hd4, -⟩ :=
    only_debug_drops_empty_calls .Debugf (some 1) svcLogger "ready" svcState rfl
      (by decide) (by decide)
  obtain ⟨-, i, hi1, hi2, hi3, -, -⟩ :=
    only_debug_drops_empty_calls .Info (some 1) svcLogger "" svcState rfl
      (by decide) (by decide)
  rw [hd4 rfl (by decide)] at hd1
  rw [hi3 rfl] at hi1 hi2
  exact ⟨rfl, by decide, hd, hd1, hi1, hi2⟩

/-! ## Global threshold -/

/-- C5: for every level `lv` and every prior state, `SetGlobalLoggerLevel(lv)`
returns with the global threshold equal to `lv`, whatever it was before, and
changes nothing else: the default logger, the once-guard, the heap of loggers
(so every sink and namespace) and the trace are as before.  Every emit call
made in the resulting state on a logger that existed before the call is
filtered against `lv`: it writes nothing if its level is below `lv` and it
appends its line otherwise (the no-argument `Debug` apart, which never
writes).  The threshold stays `lv` through any later calls other than
`SetGlobalLoggerLevel`, so loggers constructed later are filtered against it
as well. -/
theorem set_level_overwrites_threshold_only (lv : Level) (s : State) :
    ∃ s1, SetGlobalLoggerLevel lv s = .returned () s1 ∧
      s1.GlobalLogLevel = lv ∧
      s1.defaultLogger = s.defaultLogger ∧ s1.initLogger = s.initLogger ∧
      s1.heap = s.heap ∧ s1.trace = s.trace ∧
      (∀ (m : Method) (l : Ptr) (lg : SentinelLogger) (format : String) (v : List Value),
        s.load l = some lg →
          (m.level < lv → m.call l format v s1 = .returned () s1) ∧
          (m = .Debug ∧ v = [] → m.call l format v s1 = .returned () s1) ∧
          (lv ≤ m.level → ¬ (m = .Debug ∧ v = []) →
            m.call l format v s1 = .returned ()
              (s1.appendLine l (specLine lg.namespace_ m.label (m.message format v))))) ∧
      (∀ (env : Env) (cs : List Call) (s2 : State), (∀ c ∈ cs, c.isSet = false) →
        run env cs s1 = .returned () s2 → s2.GlobalLogLevel = lv) := by
  refine ⟨{ s with GlobalLogLevel := lv }, rfl, rfl, rfl, rfl, rfl, rfl, ?_, ?_⟩
  · intro m l lg format v hl
    refine ⟨fun h => call_filtered m l format v _ h, ?_, fun h hq => ?_⟩
    · rintro ⟨rfl, rfl⟩
      exact call_debug_nil l format _
    · exact call_accepted m l format v { s with GlobalLogLevel := lv } lg hl h hq
  · intro env cs s2 hcs h
    exact run_level env cs _ s2 hcs h

/-- C6: the variable initialiser sets the threshold to `Debug`, the least
severe level, and it is still `Debug` in every state a process reaches from
its start by calls other than `SetGlobalLoggerLevel`; in such a state every
one of the twelve emit methods, called on any logger with a non-empty
argument list, is accepted and appends exactly one line. -/
theorem initial_threshold_is_debug (env : Env) (cs : List Call) (s : State)
    (hcs : ∀ c ∈ cs, c.isSet = false)
    (hrun : runProcess env cs = .returned () s) :
    initialState.GlobalLogLevel = Level.Debug ∧
    (∀ m : Method, Level.Debug ≤ m.level) ∧
    s.GlobalLogLevel = Level.Debug ∧
    ∀ (m : Method) (l : Ptr) (lg : SentinelLogger) (format : String) (v : List Value),
      s.load l = some lg → v ≠ [] →
        ∃ line, m.call l format v s = .returned () (s.appendLine l line) ∧
          (s.appendLine l line).sink l = s.sink l ++ [line] := by
  have hT : s.GlobalLogLevel = Level.Debug := by
    simp only [runProcess] at hrun
    cases hp : processStart env with
    | returned u s0 =>
      rw [hp] at hrun
      rw [run_level env cs s0 s hcs hrun]
      exact (processStart_returned env s0 hp).2.1
    | exited code s0 => rw [hp] at hrun; cases hrun
    | panicked s0 => rw [hp] at hrun; cases hrun
  refine ⟨rfl, fun m => Nat.zero_le _, hT, ?_⟩
  intro m l lg format v hl hv
  refine ⟨specLine lg.namespace_ m.label (m.message format v), ?_, appendLine_sink s l _ lg hl⟩
  exact call_accepted m l format v s lg hl (by rw [hT]; exact Nat.zero_le _) (fun h => hv h.2)

/-- Witness of C6: a process that starts in `okEnv` and builds the `svc`
logger reaches `svcState`, whose threshold is `Debug`; `Panic("x")` on the new
logger appends a line. -/
theorem initial_threshold_is_debug_witness :
    runProcess okEnv [.NewSentinelFileLogger "svc.log" "svc" 3] = .returned () svcState ∧
    svcState.GlobalLogLevel = Level.Debug ∧
    ∃ line, Method.call .Panic (some 1) "" [.str "x"] svcState
        = .returned () (svcState.appendLine (some 1) line) ∧
      (svcState.appendLine (some 1) line).sink (some 1) = svcState.sink (some 1) ++ [line] :=
  ⟨by decide,
    (initial_threshold_is_debug okEnv [.NewSentinelFileLogger "svc.log" "svc" 3] svcState
      (by decide) (by decide)).2.2.1,
    (initial_threshold_is_debug okEnv [.NewSentinelFileLogger "svc.log" "svc" 3] svcState
      (by decide) (by decide)).2.2.2 .Panic (some 1) svcLogger "" [.str "x"] rfl (by decide)⟩

/-! ## Default logger -/

/-- C8 as stated fails.  In the environment `okEnv`, when process start
returns (no call of `GetDefaultLogger` has been made yet) the record file has
already been opened once and the default logger already sits at address 0;
the first call of `GetDefaultLogger` returns that address and leaves the state
as it is, so it is not the call that constructs the logger or opens the
file. -/
theorem default_logger_not_built_by_first_call :
    processStart okEnv = .returned () startedState ∧
    opens startedState.trace = 1 ∧
    startedState.heap.length = 1 ∧
    GetDefaultLogger startedState = .returned (some 0) startedState ∧
    ¬ (opens startedState.trace = 0 ∧
        opens (GetDefaultLogger startedState).state.trace = 1) := by
  decide

/-- C8, amended: the singleton is constructed through
`NewSentinelFileLogger(RecordLogFileName, "default", log.LstdFlags)` during
package initialisation, under the once-guard, before any call of
`GetDefaultLogger`.  When process start returns, the heap holds exactly this
one logger, bound to the record file under the base directory and carrying the
namespace `default`, and exactly one file has been opened.  Every call of
`GetDefaultLogger`, the first included, returns the address of that logger and
changes nothing, so any number of calls constructs nothing and opens nothing;
after any sequence of calls of the package the default logger is still the
logger at that address, with the same namespace and file; and a further pass
through the once-guard constructs nothing. -/
theorem default_logger_built_at_process_start (env : Env) (s : State)
    (hstart : processStart env = .returned () s) :
    (∃ s0, NewSentinelFileLogger env RecordLogFileName "default" LstdFlags initialState
        = .returned (some 0) s0 ∧
      s = { s0 with defaultLogger := some 0, initLogger := true }) ∧
    s.heap =
      [{ log := Logger.New
          { name := addSeparatorIfNeeded env.LogBaseDir ++ "sentinel-record.log",
            flag := O_RDWR ||| O_CREATE ||| O_APPEND, perm := 0o777 } "" LstdFlags,
         namespace_ := "default" }] ∧
    opens s.trace = 1 ∧
    GetDefaultLogger s = .returned (some 0) s ∧
    (∀ n : Nat, run env (List.replicate n .GetDefaultLogger) s = .returned () s) ∧
    (∀ (cs : List Call) (s1 : State), run env cs s = .returned () s1 →
      GetDefaultLogger s1 = .returned (some 0) s1 ∧ DefaultLoggerBuilt env s1) ∧
    init env s = .returned () s := by
  obtain ⟨hO, hg, hd, hi, hh, ho⟩ := processStart_returned env s hstart
  have hB : DefaultLoggerBuilt env s :=
    ⟨hd, hi, _, by simp only [State.load, hh]; rfl, rfl, rfl, rfl, rfl⟩
  refine ⟨?_, hh, ho, by simp only [GetDefaultLogger, hd], fun n => run_replicate_get env n s, ?_, ?_⟩
  · simp only [processStart, init, initialState] at hstart
    cases hn : NewSentinelFileLogger env RecordLogFileName "default" LstdFlags initialState with
    | returned p s2 =>
      have hp := (new_returned env _ _ _ _ s2 p hn).2.1
      simp only [initialState] at hn
      rw [hn] at hstart
      simp only [Bool.false_eq_true, if_false, Outcome.returned.injEq, true_and] at hstart
      subst hstart
      subst hp
      exact ⟨s2, rfl, rfl⟩
    | exited code s2 =>
      simp only [initialState] at hn
      rw [hn] at hstart
      simp at hstart
    | panicked s2 =>
      simp only [initialState] at hn
      rw [hn] at hstart
      simp at hstart
  · intro cs s1 h
    have hB1 := run_built env cs s s1 hB h
    exact ⟨by simp only [GetDefaultLogger, hB1.1], hB1⟩
  · simp only [init, hi, if_true]

/-- Witness of the amended C8: process start in `okEnv` returns
`startedState`, where the default logger is at address 0 and three calls of
`GetDefaultLogger` leave the state as it is. -/
theorem default_logger_built_at_process_start_witness :
    processStart okEnv = .returned () startedState ∧
    opens startedState.trace = 1 ∧
    GetDefaultLogger startedState = .returned (some 0) startedState ∧
    run okEnv [.GetDefaultLogger, .GetDefaultLogger, .GetDefaultLogger] startedState
      = .returned () startedState :=
  ⟨by decide,
    (default_logger_built_at_process_start okEnv startedState (by decide)).2.2.1,
    (default_logger_built_at_process_start okEnv startedState (by decide)).2.2.2.1,
    (default_logger_built_at_process_start okEnv startedState (by decide)).2.2.2.2.1 3⟩

/-! ## Constructor -/

/-- C9: for every output file, namespace and flag and every outcome of the
`os` calls, `NewSentinelFileLogger` behaves as follows.  Creating the log
directory fails exactly when `os.Stat` fails with an error other than
not-exist, or fails with not-exist and `os.MkdirAll` fails.  If it fails, the
error is sent to the diagnostic stream and the next effect is the
`os.OpenFile` call; if it succeeds, the `os.OpenFile` call follows directly.
If the open fails, the process exits with status 1 after a diagnostic, and no
logger is allocated or returned.  If the open succeeds, whether or not the
directory could be created, the call returns the address of a new logger that
is bound to the opened file, carries exactly the given namespace and uses the
given flag; the loggers that existed before and the global variables are
unchanged. -/
theorem constructor_failure_policy (env : Env) (outputFile ns : String) (flag : Int)
    (s : State) :
    ((createDirIfNotExists env (addSeparatorIfNeeded env.LogBaseDir) s).1 =
      match env.Stat (addSeparatorIfNeeded env.LogBaseDir) with
      | none => none
      | some err =>
        if err.notExist then env.MkdirAll (addSeparatorIfNeeded env.LogBaseDir) ModePerm
        else some err) ∧
    (∀ e, (createDirIfNotExists env (addSeparatorIfNeeded env.LogBaseDir) s).1 = some e →
      ∃ post, (NewSentinelFileLogger env outputFile ns flag s).state.trace =
        (createDirIfNotExists env (addSeparatorIfNeeded env.LogBaseDir) s).2.trace ++
          [.diag ("Failed to create the log directory: " ++ e.msg),
           .openFile (addSeparatorIfNeeded env.LogBaseDir ++ outputFile)
             (O_RDWR ||| O_CREATE ||| O_APPEND) 0o777] ++ post) ∧
    ((createDirIfNotExists env (addSeparatorIfNeeded env.LogBaseDir) s).1 = none →
      ∃ post, (NewSentinelFileLogger env outputFile ns flag s).state.trace =
        (createDirIfNotExists env (addSeparatorIfNeeded env.LogBaseDir) s).2.trace ++
          [.openFile (addSeparatorIfNeeded env.LogBaseDir ++ outputFile)
             (O_RDWR ||| O_CREATE ||| O_APPEND) 0o777] ++ post) ∧
    (∀ e, env.OpenFile (addSeparatorIfNeeded env.LogBaseDir ++ outputFile)
        (O_RDWR ||| O_CREATE ||| O_APPEND) 0o777 = some e →
      ∃ s1, NewSentinelFileLogger env outputFile ns flag s = .exited 1 s1 ∧
        s1.heap = s.heap ∧
        s1.trace.getLast? = some (.diag ("Failed to operate the log file: " ++ e.msg))) ∧
    (env.OpenFile (addSeparatorIfNeeded env.LogBaseDir ++ outputFile)
        (O_RDWR ||| O_CREATE ||| O_APPEND) 0o777 = none →
      ∃ s1, NewSentinelFileLogger env outputFile ns flag s
          = .returned (some s.heap.length) s1 ∧
        s1.load (some s.heap.length) =
          some { log := { out := { name := addSeparatorIfNeeded env.LogBaseDir ++ outputFile,
                                   flag := O_RDWR ||| O_CREATE ||| O_APPEND, perm := 0o777 },
                          pre := "", flag := flag, written := [] },
                 namespace_ := ns } ∧
        (∀ i, i < s.heap.length → s1.load (some i) = s.load (some i)) ∧
        s1.heap.length = s.heap.length + 1 ∧
        s1.GlobalLogLevel = s.GlobalLogLevel ∧ s1.defaultLogger = s.defaultLogger ∧
        s1.initLogger = s.initLogger) := by
  obtain ⟨es, -, hes, heq⟩ := new_spec env outputFile ns flag s
  refine ⟨?_, ?_, ?_, ?_, ?_⟩
  · unfold createDirIfNotExists
    cases env.Stat (addSeparatorIfNeeded env.LogBaseDir) with
    | none => rfl
    | some err => by_cases hne : err.notExist <;> simp [hne]
  · intro e he
    rw [heq, hes, he]
    cases hO : env.OpenFile (addSeparatorIfNeeded env.LogBaseDir ++ outputFile)
        (O_RDWR ||| O_CREATE ||| O_APPEND) 0o777 with
    | some d => exact ⟨[.diag ("Failed to operate the log file: " ++ d.msg)], by simp [Outcome.state]⟩
    | none => exact ⟨[], by simp [Outcome.state]⟩
  · intro he
    rw [heq, hes, he]
    cases hO : env.OpenFile (addSeparatorIfNeeded env.LogBaseDir ++ outputFile)
        (O_RDWR ||| O_CREATE ||| O_APPEND) 0o777 with
    | some d => exact ⟨[.diag ("Failed to operate the log file: " ++ d.msg)], by simp [Outcome.state]⟩
    | none => exact ⟨[], by simp [Outcome.state]⟩
  · intro e hO
    rw [heq, hO]
    exact ⟨_, rfl, rfl, by simp⟩
  · intro hO
    rw [heq, hO]
    refine ⟨_, rfl, by simp [State.load, Logger.New], fun i hi => ?_, by simp, rfl, rfl, rfl⟩
    simp only [State.load]
    exact List.getElem?_append_left hi

/-- Witness of C9: in `brokenEnv` the directory error is logged, the open is
still attempted, and its failure ends the process with status 1; in
`statFailsEnv` the directory error is logged and the logger is returned. -/
theorem constructor_failure_policy_witness :
    (∃ s1, NewSentinelFileLogger brokenEnv "app.log" "svc" 3 initialState = .exited 1 s1 ∧
      s1.heap = initialState.heap ∧
      s1.trace.getLast? = some (.diag ("Failed to operate the log file: " ++
        "open /logs/app.log: no such file or directory"))) ∧
    NewSentinelFileLogger brokenEnv "app.log" "svc" 3 initialState =
      .exited 1 { initialState with trace :=
        [.stat "/logs/", .mkdirAll "/logs/" 511,
         .diag "Failed to create the log directory: mkdir /logs/: permission denied",
         .openFile "/logs/app.log" 1090 511,
         .diag "Failed to operate the log file: open /logs/app.log: no such file or directory"] } ∧
    NewSentinelFileLogger statFailsEnv "app.log" "svc" 3 initialState =
      .returned (some 0) { initialState with
        heap := [{ log := { out := { name := "/logs/app.log", flag := 1090, perm := 511 },
                            pre := "", flag := 3, written := [] },
                   namespace_ := "svc" }],
        trace :=
          [.stat "/logs/",
           .diag "Failed to create the log directory: stat /logs/: input/output error",
           .openFile "/logs/app.log" 1090 511] } :=
  ⟨(constructor_failure_policy brokenEnv "app.log" "svc" 3 initialState).2.2.2.1
      { msg := "open /logs/app.log: no such file or directory", notExist := true } rfl,
    by decide, by decide⟩

/-- C10 as stated fails.  With base directory `/logs`, the call
`NewSentinelFileLogger("../escape.log", "svc", log.LstdFlags)` opens the name
`/logs/../escape.log` and returns a logger bound to it.  That name denotes
`/escape.log`, which does not lie under `/logs`: the file is not rooted under
the base directory. -/
theorem log_file_can_leave_base_dir :
    NewSentinelFileLogger okEnv "../escape.log" "svc" 3 startedState =
      .returned (some 1) { startedState with
        heap := startedState.heap ++
          [{ log := { out := { name := "/logs/../escape.log", flag := 1090, perm := 511 },
                      pre := "", flag := 3, written := [] },
             namespace_ := "svc" }],
        trace := startedState.trace ++
          [.stat "/logs/", .openFile "/logs/../escape.log" 1090 511] } ∧
    resolve [] okEnv.LogBaseDir = ["logs".data] ∧
    resolve [] "/logs/../escape.log" = ["escape.log".data] ∧
    ¬ ∃ rest, resolve [] "/logs/../escape.log" = resolve [] okEnv.LogBaseDir ++ rest := by
  refine ⟨by decide, by decide, by decide, ?_⟩
  rintro ⟨rest, h⟩
  have h1 : resolve [] "/logs/../escape.log" = ["escape.log".data] := by decide
  have h2 : resolve [] okEnv.LogBaseDir = ["logs".data] := by decide
  rw [h1, h2] at h
  have h3 : "escape.log".data = "logs".data := (List.cons.inj h).1
  exact absurd h3 (by decide)

/-- C10, amended: for every output file, the one name `NewSentinelFileLogger`
opens is the log base directory, with the separator appended unless the
directory already ends with it, followed by `outputFile` as given, so
`outputFile` is taken relative to the base directory and the base directory
is an initial part of the name.  When the base directory is not empty and
`outputFile` has no `..` component, the name denotes a location under the
base directory.  The file is opened with `O_RDWR`, `O_CREATE` and `O_APPEND`
set and `O_TRUNC` clear, and the returned logger is bound to it.  The name
process start opens for the default logger is `sentinel-record.log` directly
under the base directory. -/
theorem log_file_name_extends_base_dir (env : Env) (outputFile ns : String) (flag : Int)
    (s : State) :
    (∃ pre post, (NewSentinelFileLogger env outputFile ns flag s).state.trace =
        s.trace ++ pre ++
          [.openFile (addSeparatorIfNeeded env.LogBaseDir ++ outputFile)
            (O_RDWR ||| O_CREATE ||| O_APPEND) 0o777] ++ post ∧
        opens pre = 0 ∧ opens post = 0) ∧
    (∃ sep, (sep = "" ∨ sep = "/") ∧
      addSeparatorIfNeeded env.LogBaseDir = env.LogBaseDir ++ sep ∧
      addSeparatorIfNeeded env.LogBaseDir ++ outputFile
        = env.LogBaseDir ++ (sep ++ outputFile)) ∧
    (addSeparatorIfNeeded env.LogBaseDir).data.getLast? = some '/' ∧
    (∀ cwd : List (List Char), env.LogBaseDir ≠ "" →
      (∀ seg ∈ segments outputFile.data, seg ≠ ['.', '.']) →
      ∃ rest, resolve cwd (addSeparatorIfNeeded env.LogBaseDir ++ outputFile)
        = resolve cwd env.LogBaseDir ++ rest) ∧
    (O_RDWR ||| O_CREATE ||| O_APPEND) &&& O_RDWR = O_RDWR ∧
    (O_RDWR ||| O_CREATE ||| O_APPEND) &&& O_CREATE = O_CREATE ∧
    (O_RDWR ||| O_CREATE ||| O_APPEND) &&& O_APPEND = O_APPEND ∧
    (O_RDWR ||| O_CREATE ||| O_APPEND) &&& O_TRUNC = 0 ∧
    (∀ p s1, NewSentinelFileLogger env outputFile ns flag s = .returned p s1 →
      ∃ lg, s1.load p = some lg ∧
        lg.log.out.name = addSeparatorIfNeeded env.LogBaseDir ++ outputFile ∧
        lg.log.out.flag = O_RDWR ||| O_CREATE ||| O_APPEND) ∧
    (∃ pre post, (processStart env).state.trace =
        pre ++ [.openFile (addSeparatorIfNeeded env.LogBaseDir ++ "sentinel-record.log")
            (O_RDWR ||| O_CREATE ||| O_APPEND) 0o777] ++ post ∧
        opens pre = 0 ∧ opens post = 0) ∧
    (env.LogBaseDir.data.getLast? ≠ some '/' →
      addSeparatorIfNeeded env.LogBaseDir ++ "sentinel-record.log"
        = env.LogBaseDir ++ "/sentinel-record.log") ∧
    (∀ cwd : List (List Char), env.LogBaseDir ≠ "" →
      resolve cwd (addSeparatorIfNeeded env.LogBaseDir ++ "sentinel-record.log")
        = resolve cwd env.LogBaseDir ++ ["sentinel-record.log".data]) := by
  refine ⟨new_trace env outputFile ns flag s, ?_, ?_, ?_, by decide, by decide, by decide,
    by decide, ?_, ?_, ?_, ?_⟩
  · rcases addSeparator_cases env.LogBaseDir with ⟨-, h⟩ | ⟨-, h⟩
    · exact ⟨"", Or.inl rfl, by rw [h]; simp, by rw [h]; simp⟩
    · exact ⟨"/", Or.inr rfl, h, by rw [h, String.append_assoc]⟩
  · rcases addSeparator_cases env.LogBaseDir with ⟨h1, h⟩ | ⟨-, h⟩
    · rw [h]; exact h1
    · rw [h]; simp
  · intro cwd hb hseg
    rw [resolve_under cwd env.LogBaseDir outputFile hb]
    exact resolveFrom_extends _ _ hseg
  · intro p s1 h
    obtain ⟨-, hp, -, -, -, hh, -⟩ := new_returned env outputFile ns flag s s1 p h
    subst hp
    refine ⟨{ log := Logger.New
                { name := addSeparatorIfNeeded env.LogBaseDir ++ outputFile,
                  flag := O_RDWR ||| O_CREATE ||| O_APPEND, perm := 0o777 } "" flag,
              namespace_ := ns }, ?_, rfl, rfl⟩
    simp [State.load, hh]
  · obtain ⟨pre, post, h, h1, h2⟩ := new_trace env RecordLogFileName "default" LstdFlags initialState
    refine ⟨pre, post, ?_, h1, h2⟩
    rw [processStart, init_state_trace env initialState rfl, h]
    simp [initialState, RecordLogFileName]
  · intro hne
    rcases addSeparator_cases env.LogBaseDir with ⟨h1, -⟩ | ⟨-, h⟩
    · exact absurd h1 hne
    · rw [h, String.append_assoc]; rfl
  · intro cwd hb
    rw [resolve_under cwd env.LogBaseDir "sentinel-record.log" hb]
    have hs : segments "sentinel-record.log".data = ["sentinel-record.log".data] := by decide
    rw [hs, resolveFrom, if_neg (by decide), if_neg (by decide), resolveFrom]

/-- Witness of the amended C10: with base directory `/logs`, the name opened
for `svc.log` is `/logs/svc.log`, which denotes a location under `/logs`, and
the name opened at process start is `/logs/sentinel-record.log`. -/
theorem log_file_name_extends_base_dir_witness :
    NewSentinelFileLogger okEnv "svc.log" "svc" 3 startedState = .returned (some 1) svcState ∧
    addSeparatorIfNeeded okEnv.LogBaseDir ++ "svc.log" = "/logs/svc.log" ∧
    (∃ rest, resolve [] (addSeparatorIfNeeded okEnv.LogBaseDir ++ "svc.log")
      = resolve [] okEnv.LogBaseDir ++ rest) ∧
    addSeparatorIfNeeded okEnv.LogBaseDir ++ "sentinel-record.log"
      = okEnv.LogBaseDir ++ "/sentinel-record.log" :=
  ⟨by decide, by decide,
    (log_file_name_extends_base_dir okEnv "svc.log" "svc" 3 startedState).2.2.2.1 []
      (by decide) (by decide),
    (log_file_name_extends_base_dir okEnv "svc.log" "svc" 3 startedState).2.2.2.2.2.2.2.2.2.2.1
      (by decide)⟩

end Logging
